import Mathlib

/-!
Verification development for the gridworks-pico firmware family.

The definitions below are shallow embeddings of the pulse-sensing and
telemetry core of the firmware:

* `update_hz`       — `PicoFlowHall.update_hz` (src/flow_hall/flow_hall_main.py)
* `update_gpm`      — `PicoFlowReed.update_gpm` (src/flow_reed/flow_reed_main.py)
* `record_rising_tick` — the `down -> going up` tick-recording branch of
  `PicoFlowReed.main_loop`
* `post_ticklist`, `post_timestamp_list` — the ticklist publish paths
* `batch_step`      — the guard-protected push/flush protocol of
  `PicoFlowHall.pulse_callback` / `main_loop`
* `reed_fsm_step`   — the four-state polled debouncer of `PicoFlowReed.main_loop`
* `slow_step`       — the interrupt-edge debouncer of `PicoFlowSlow.pulse_callback`
* `boot_step`       — the boot loader written by `provisioner.py` (`bootpy_code`)
* `update_code_model` — `PicoFlowHall.update_code` / `PicoFlowReed.update_code`

Python floats are modelled as exact rationals (`ℚ`); all the properties
proved here concern exact branch conditions and values that are exact in
binary floating point as well (comparisons against integers, assignments,
and `min` clamps).  MicroPython monotonic clocks are modelled as `Int`
timestamps.
-/

/-! ### Rate estimator: `PicoFlowHall.update_hz` -/

/-- Configuration fields of `PicoFlowHall` that `update_hz`/`post_hz` read.
Defaults: `alpha = 10/100`, `exp_weighting_ms = 40`,
`no_flow_milliseconds = 1000`, `async_capture_delta_hz = 1`. -/
structure HzConfig where
  alpha : ℚ
  exp_weighting_ms : ℚ
  no_flow_milliseconds : ℚ
  async_capture_delta_hz : ℚ
deriving Repr

/-- The mutable rate state of `PicoFlowHall`: the exponentially weighted Hz
and the last published Hz (`None` before the first publish). -/
structure HzState where
  exp_hz : ℚ
  prev_hz : Option ℚ
deriving Repr, DecidableEq

/-- The default `PicoFlowHall` configuration (flow_hall_main.py lines 22-28). -/
def hallCfg : HzConfig :=
  { alpha := 10 / 100
    exp_weighting_ms := 40
    no_flow_milliseconds := 1000
    async_capture_delta_hz := 1 }

/-- `tw_alpha = min(1, (delta_ms / self.exp_weighting_ms) * self.alpha)`
(flow_hall_main.py line 245). -/
def tw_alpha (cfg : HzConfig) (delta_ms : ℚ) : ℚ :=
  min 1 (delta_ms / cfg.exp_weighting_ms * cfg.alpha)

/-- `PicoFlowHall.post_hz` (lines 205-221): posts over HTTP (any transport
exception is caught and logged), then sets `prev_hz := exp_hz`
unconditionally.  Only the state effect is modelled. -/
def post_hz (s : HzState) : HzState :=
  { s with prev_hz := some s.exp_hz }

/-- Result of one `update_hz` call: the new state, and whether `post_hz`
was invoked. -/
structure HzUpdate where
  state : HzState
  posted : Bool
deriving Repr, DecidableEq

/-- `PicoFlowHall.update_hz` (flow_hall_main.py lines 236-248), verbatim:

    delta_ms = delta_us / 1e3
    hz = 1e6 / delta_us
    if delta_ms > self.no_flow_milliseconds:      self.exp_hz = 0
    elif self.exp_hz == 0:                        self.exp_hz = hz
    else: tw_alpha = min(1, (delta_ms / self.exp_weighting_ms) * self.alpha)
          self.exp_hz = tw_alpha * hz + (1 - tw_alpha) * self.exp_hz
    if (self.prev_hz is None) or (abs(self.exp_hz - self.prev_hz) > self.async_capture_delta_hz):
        self.post_hz()
-/
def update_hz (cfg : HzConfig) (s : HzState) (delta_us : ℚ) : HzUpdate :=
  let delta_ms := delta_us / 1000
  let hz := 1000000 / delta_us
  let exp1 : ℚ :=
    if cfg.no_flow_milliseconds < delta_ms then 0
    else if s.exp_hz = 0 then hz
    else tw_alpha cfg delta_ms * hz + (1 - tw_alpha cfg delta_ms) * s.exp_hz
  let s1 : HzState := { exp_hz := exp1, prev_hz := s.prev_hz }
  match s.prev_hz with
  | none => ⟨post_hz s1, true⟩
  | some p =>
      if cfg.async_capture_delta_hz < |exp1 - p| then ⟨post_hz s1, true⟩
      else ⟨s1, false⟩

/-! ### Rate estimator: `PicoFlowReed.update_gpm` -/

/-- `TIME_WEIGHTING_MS = 800` (flow_reed_main.py line 32). -/
def TIME_WEIGHTING_MS : ℚ := 800

/-- Configuration fields of `PicoFlowReed` that `update_gpm`/`post_gpm` read. -/
structure GpmConfig where
  alpha : ℚ
  no_flow_milliseconds : ℚ
  gallons_per_tick : ℚ
  async_delta_gpm : ℚ
  sync_report_gpm : Bool
deriving Repr

/-- The mutable rate state of `PicoFlowReed`. -/
structure GpmState where
  exp_gpm : ℚ
  prev_gpm : Option ℚ
deriving Repr, DecidableEq

/-- `PicoFlowReed.post_gpm` (lines 225-245): when `sync_report_gpm` is set,
posts over HTTP (exceptions caught and logged) and records
`prev_gpm := exp_gpm`; otherwise returns with no state change. -/
def post_gpm (cfg : GpmConfig) (s : GpmState) : GpmState :=
  if cfg.sync_report_gpm then { s with prev_gpm := some s.exp_gpm } else s

/-- `PicoFlowReed.update_gpm` (flow_reed_main.py lines 260-275), verbatim:

    hz = 1000 / delta_ms
    gpm = self.gallons_per_tick * 60 * hz
    if delta_ms > self.no_flow_milliseconds:      self.exp_gpm = 0
    elif self.exp_gpm == 0:                       self.exp_gpm = gpm
    else: tw_alpha = min(1, (delta_ms / TIME_WEIGHTING_MS) * self.alpha)
          self.exp_gpm = tw_alpha * gpm + (1 - tw_alpha) * self.exp_gpm
    if self.prev_gpm is None:                     self.post_gpm()
    elif abs(self.exp_gpm - self.prev_gpm) > self.async_delta_gpm: self.post_gpm()
-/
def update_gpm (cfg : GpmConfig) (s : GpmState) (delta_ms : ℚ) : GpmState :=
  let hz := 1000 / delta_ms
  let gpm := cfg.gallons_per_tick * 60 * hz
  let exp1 : ℚ :=
    if cfg.no_flow_milliseconds < delta_ms then 0
    else if s.exp_gpm = 0 then gpm
    else
      let tw := min 1 (delta_ms / TIME_WEIGHTING_MS * cfg.alpha)
      tw * gpm + (1 - tw) * s.exp_gpm
  let s1 : GpmState := { exp_gpm := exp1, prev_gpm := s.prev_gpm }
  match s.prev_gpm with
  | none => post_gpm cfg s1
  | some p => if cfg.async_delta_gpm < |exp1 - p| then post_gpm cfg s1 else s1

/-! ### Tick recording: the `down -> going up` branch of `PicoFlowReed.main_loop` -/

/-- Tick-list state of `PicoFlowReed` (first tick timestamp, relative list,
and the rate state that `update_gpm` mutates). -/
structure TickState where
  first_tick_ms : Option ℚ
  relative_ms_list : List ℚ
  gpm : GpmState
deriving Repr, DecidableEq

/-- The tick-recording body of the `down -> going up` branch of
`PicoFlowReed.main_loop` (flow_reed_main.py lines 333-340): the first tick
seeds `first_tick_ms` and appends relative time `0`; every later tick
computes `delta_ms` from the previous relative entry, feeds it to
`update_gpm`, and appends the new relative time. -/
def record_rising_tick (cfg : GpmConfig) (s : TickState) (current_time_ms : ℚ) : TickState :=
  match s.first_tick_ms with
  | none =>
      { s with first_tick_ms := some current_time_ms, relative_ms_list := [0] }
  | some f =>
      let relative_ms := current_time_ms - f
      let delta_ms := relative_ms - s.relative_ms_list.getLastD 0
      { first_tick_ms := some f
        relative_ms_list := s.relative_ms_list ++ [relative_ms]
        gpm := update_gpm cfg s.gpm delta_ms }

/-- Fold `record_rising_tick` over a sequence of accepted-edge timestamps. -/
def record_ticks (cfg : GpmConfig) (s : TickState) (ts : List ℚ) : TickState :=
  ts.foldl (record_rising_tick cfg) s

/-- Configuration used in the boundary scenarios of the spec:
`no_flow_milliseconds = 1000`, `alpha = 10/100`, default
`gallons_per_tick = 748/10000`, `async_delta_gpm = 10/100`. -/
def reedScenarioCfg : GpmConfig :=
  { alpha := 10 / 100
    no_flow_milliseconds := 1000
    gallons_per_tick := 748 / 10000
    async_delta_gpm := 10 / 100
    sync_report_gpm := true }

/-- Fresh tick/rate state at startup. -/
def initTickState : TickState :=
  { first_tick_ms := none, relative_ms_list := [], gpm := { exp_gpm := 0, prev_gpm := none } }

/-! ### Ticklist publish paths -/

/-- Outcome of one `urequests.post` call as seen by the caller: either the
call raised (network unreachable, timeout, ...) or it returned a response
with some status code. -/
inductive PostOutcome
  | err
  | resp (status : Nat)
deriving Repr, DecidableEq

/-- `PicoFlowHall` ticklist state: `first_tick_us` and `relative_us_list`. -/
structure HallTickSt where
  first_tick_us : Option Int
  relative_us_list : List Int
deriving Repr, DecidableEq

/-- `PicoFlowHall.post_ticklist` (flow_hall_main.py lines 254-272): the POST
sits in a `try` whose `except` only prints; the status code is never
inspected; *after* the `try/except` the code unconditionally runs
`self.relative_us_list = []` and `self.first_tick_us = None`.  Both match
arms are therefore identical: the batch is cleared whatever the transport
outcome was. -/
def post_ticklist (s : HallTickSt) (o : PostOutcome) : HallTickSt :=
  match o with
  | .err => { s with relative_us_list := [], first_tick_us := none }
  | .resp _ => { s with relative_us_list := [], first_tick_us := none }

/-- `PicoFlowReed.post_timestamp_list` (flow_reed_main.py lines 281-302):
returns immediately when `first_tick_ms` is `None`; otherwise posts (the
`except` only prints, the status is never inspected) and then
unconditionally clears `relative_ms_list` and `first_tick_ms`. -/
def post_timestamp_list (s : TickState) (o : PostOutcome) : TickState :=
  match s.first_tick_ms, o with
  | none, _ => s
  | some _, .err => { s with relative_ms_list := [], first_tick_ms := none }
  | some _, .resp _ => { s with relative_ms_list := [], first_tick_ms := none }

/-! ### `PicoFlowHall.main_loop`: when a ticklist flush happens -/

/-- The state read by the ticklist branch of `PicoFlowHall.main_loop`:
`utime.time()` now, `last_ticks_sent`, and the relative list. -/
structure HallLoopSt where
  now : Int
  last_ticks_sent : Int
  relative_us_list : List Int
deriving Repr, DecidableEq

/-- The flush condition of `PicoFlowHall.main_loop` (line 296):
`(utime.time() - self.last_ticks_sent > self.publish_stamps_period_s) and
(len(self.relative_us_list) > 0)`. -/
def ticklist_due (publish_stamps_period_s : Int) (s : HallLoopSt) : Bool :=
  decide (publish_stamps_period_s < s.now - s.last_ticks_sent)
    && decide (0 < s.relative_us_list.length)

/-- One iteration of the ticklist branch of `PicoFlowHall.main_loop`
(lines 296-302): when due, the guard is raised, `post_ticklist` clears the
batch, `last_ticks_sent := now`, and the guard is lowered; otherwise
nothing happens.  Returns the new state and whether a flush was
performed. -/
def hall_loop_tick_step (publish_stamps_period_s : Int) (s : HallLoopSt) :
    HallLoopSt × Bool :=
  if ticklist_due publish_stamps_period_s s then
    ({ s with relative_us_list := [], last_ticks_sent := s.now }, true)
  else (s, false)

/-! ### TickBatch push/flush guard protocol (`PicoFlowHall`) -/

/-- Events of the capture/flush interleaving: an edge callback pushing an
edge (identified by a label `i`), the main loop starting a flush
(`actively_publishing = True` followed by `post_ticklist`, which captures
and clears the list while the guard is up), and the main loop lowering the
guard after its post-publish wait. -/
inductive BatchEv
  | push (i : Nat)
  | beginFlush
  | endFlush
deriving Repr, DecidableEq

/-- The shared state of `PicoFlowHall.pulse_callback` / `main_loop`: the
guard flag `actively_publishing`, the live `relative_us_list` (edges are
abstracted to their labels), and the history of flushed batches handed to
the transport. -/
structure BatchSt where
  actively_publishing : Bool
  relative_list : List Nat
  flushed : List (List Nat)
deriving Repr, DecidableEq

/-- One event of the guard protocol.
`push` is `pulse_callback` (flow_hall_main.py lines 278-290): a no-op when
`actively_publishing` is set, an append otherwise.
`beginFlush` is `main_loop` lines 297-298: the guard goes up and
`post_ticklist` sends the current list and clears it — pushes between the
guard being raised and the clear are no-ops by the guard test, so the
capture+clear is modelled as one event.
`endFlush` is line 302: the guard goes down. -/
def batch_step (s : BatchSt) : BatchEv → BatchSt
  | .push i =>
      if s.actively_publishing then s
      else { s with relative_list := s.relative_list ++ [i] }
  | .beginFlush =>
      { actively_publishing := true, relative_list := [],
        flushed := s.flushed ++ [s.relative_list] }
  | .endFlush => { s with actively_publishing := false }

/-- Run a sequence of interleaved events. -/
def batch_run (s : BatchSt) (evs : List BatchEv) : BatchSt :=
  evs.foldl batch_step s

/-- Number of `push i` events in a trace (pushes of edge `i`, accepted or
not). -/
def pushCount (i : Nat) : List BatchEv → Nat
  | [] => 0
  | .push j :: evs => (if j = i then 1 else 0) + pushCount i evs
  | _ :: evs => pushCount i evs

/-- Number of `push i` events that are *accepted* (arrive while the guard
is down) when the trace runs from state `s`. -/
def acceptedCount (i : Nat) (s : BatchSt) : List BatchEv → Nat
  | [] => 0
  | .push j :: evs =>
      (if j = i ∧ s.actively_publishing = false then 1 else 0) +
        acceptedCount i (batch_step s (.push j)) evs
  | .beginFlush :: evs => acceptedCount i (batch_step s .beginFlush) evs
  | .endFlush :: evs => acceptedCount i (batch_step s .endFlush) evs

/-- The startup state: guard down, no edges, nothing flushed. -/
def initBatchSt : BatchSt :=
  { actively_publishing := false, relative_list := [], flushed := [] }

/-! ### Firmware slots and the boot loader (`provisioner.py`, `bootpy_code`) -/

/-- The four firmware slots on the device's flat filesystem, each either
absent or holding the bytes of a python image:
`main.py` (current), `main_update.py` (staged update),
`main_revert.py` (staged rollback), `main_previous.py` (previous). -/
structure PicoFs where
  main : Option (List Nat)
  main_update : Option (List Nat)
  main_revert : Option (List Nat)
  main_previous : Option (List Nat)
deriving Repr, DecidableEq

/-- The `boot.py` written by `provisioner.py` (lines 2102-2120), run before
`main.py` on every reset:

    if 'main_update.py' in os.listdir():
        if 'main_previous.py' in os.listdir(): os.remove('main_previous.py')
        if 'main.py' in os.listdir(): os.rename('main.py', 'main_previous.py')
        os.rename('main_update.py', 'main.py')
    elif 'main_revert.py' in os.listdir():
        if 'main.py' in os.listdir(): os.remove('main.py')
        os.rename('main_revert.py', 'main.py')
-/
def boot_step (fs : PicoFs) : PicoFs :=
  if fs.main_update.isSome then
    { main := fs.main_update
      main_update := none
      main_revert := fs.main_revert
      main_previous := fs.main }
  else if fs.main_revert.isSome then
    { main := fs.main_revert
      main_update := fs.main_update
      main_revert := none
      main_previous := fs.main_previous }
  else fs

/-- Staging an update: `update_code` writes the response body to
`main_update.py` (flow_hall_main.py line 197, flow_reed_main.py line 217). -/
def stage_update (fs : PicoFs) (b : List Nat) : PicoFs :=
  { fs with main_update := some b }

/-- Staging a rollback: `update_app_config`'s except-branch
(flow_reed_main.py lines 192-194, flow_hall_main.py lines 171-174) renames
`main_previous.py` to `main_revert.py` when it exists. -/
def stage_rollback (fs : PicoFs) : PicoFs :=
  if fs.main_previous.isSome then
    { fs with main_revert := fs.main_previous, main_previous := none }
  else fs

/-! ### `update_code` and exception propagation through `start` -/

/-- A transport response for the firmware check: a status code and a raw
body (bytes). -/
structure CodeResp where
  status : Nat
  body : List Nat
deriving Repr, DecidableEq

/-- What `update_code` does after a successful POST: which file body (if
any) is written to `main_update.py`, and whether `machine.reset()` is
called. -/
structure UpdateAction where
  staged : Option (List Nat)
  reboot : Bool
deriving Repr, DecidableEq

/-- `PicoFlowHall.update_code` / `PicoFlowReed.update_code` (flow_hall_main.py
lines 180-199, flow_reed_main.py lines 200-219), given the response:
on a 200, try `ujson.loads(response.content)`; on decode success do
nothing; on decode failure write the full body to `main_update.py` and
reset.  Non-200 responses fall through with no action.
`jsonDecodable` is the oracle for `ujson.loads` succeeding on the body. -/
def update_code_model (jsonDecodable : List Nat → Bool) (r : CodeResp) : UpdateAction :=
  if r.status = 200 then
    if jsonDecodable r.body then { staged := none, reboot := false }
    else { staged := some r.body, reboot := true }
  else { staged := none, reboot := false }

/-- The `urequests.post` of `update_code` is *not* wrapped in `try/except`
(flow_hall_main.py line 190): an exception propagates to the caller.
`Except.error` models the raised exception. -/
def update_code_net (jsonDecodable : List Nat → Bool)
    (post : Except Unit CodeResp) : Except Unit UpdateAction :=
  match post with
  | .error e => .error e
  | .ok r => .ok (update_code_model jsonDecodable r)

/-- What happened during `PicoFlowHall.start` (flow_hall_main.py lines
307-314): did `update_code` raise out of `start`, did the device reset for
a staged update, and were the pin IRQ handler, the keepalive timer and the
main loop reached. -/
structure StartTrace where
  raised : Bool
  resetForUpdate : Bool
  irq_handler_set : Bool
  keepalive_timer_started : Bool
  main_loop_entered : Bool
deriving Repr, DecidableEq

/-- `PicoFlowHall.start` after `connect_to_wifi`: `update_code` runs first;
if its POST raises, the exception propagates and none of the later lines
run; if it stages an update it resets the device; otherwise control
reaches `pulse_pin.irq(...)`, `start_keepalive_timer()` and
`main_loop()`. -/
def start_hall (jsonDecodable : List Nat → Bool)
    (post : Except Unit CodeResp) : StartTrace :=
  match update_code_net jsonDecodable post with
  | .error _ => ⟨true, false, false, false, false⟩
  | .ok a =>
      if a.reboot then ⟨false, true, false, false, false⟩
      else ⟨false, false, true, true, true⟩

/-! ### Polled-level debouncer: the pin FSM of `PicoFlowReed.main_loop` -/

/-- The `PinState` class of flow_reed_main.py (lines 38-42). -/
inductive ReedPinState
  | GOING_UP
  | UP
  | GOING_DOWN
  | DOWN
deriving Repr, DecidableEq

/-- The FSM variables of `PicoFlowReed.main_loop`: `self.pin_state` and the
two local reference times `time_since_0` / `time_since_1`. -/
structure ReedFsmSt where
  pin_state : ReedPinState
  time_since_0 : Int
  time_since_1 : Int
deriving Repr, DecidableEq

/-- One polling iteration of the state-machine block of
`PicoFlowReed.main_loop` (flow_reed_main.py lines 323-363), given the pin
reading and `utime.ticks_ms()`.  Returns the new state and whether this
iteration recorded a tick: the *only* branch that records a tick (appends
to `relative_ms_list` / feeds `update_gpm`) is `down -> going up`, taken
immediately when a `1` is read in state `DOWN` — before any deadband
confirmation. -/
def reed_fsm_step (deadband : Int) (s : ReedFsmSt) (reading : Bool) (now : Int) :
    ReedFsmSt × Bool :=
  match s.pin_state, reading with
  | .DOWN, true => (⟨.GOING_UP, s.time_since_0, now⟩, true)
  | .DOWN, false => (s, false)
  | .GOING_UP, false => (⟨.GOING_UP, s.time_since_0, now⟩, false)
  | .GOING_UP, true =>
      (if deadband < now - s.time_since_1 then ⟨.UP, s.time_since_0, s.time_since_1⟩
       else s, false)
  | .UP, false => (⟨.GOING_DOWN, now, s.time_since_1⟩, false)
  | .UP, true => (s, false)
  | .GOING_DOWN, true => (⟨.GOING_DOWN, now, s.time_since_1⟩, false)
  | .GOING_DOWN, false =>
      (if deadband < now - s.time_since_0 then ⟨.DOWN, s.time_since_0, s.time_since_1⟩
       else s, false)

/-- Run the polled FSM over a list of `(reading, ticks_ms)` samples,
returning the timestamps of the iterations that recorded a tick. -/
def reed_fsm_run (deadband : Int) (s : ReedFsmSt) : List (Bool × Int) → List Int
  | [] => []
  | (r, t) :: rest =>
      let step := reed_fsm_step deadband s r t
      if step.2 then t :: reed_fsm_run deadband step.1 rest
      else reed_fsm_run deadband step.1 rest

/-- Sample times are nondecreasing and bounded below by `tp` (the main loop
reads `utime.ticks_ms()` once per iteration, so successive readings never
decrease). -/
def timesMono (tp : Int) : List (Bool × Int) → Bool
  | [] => true
  | (_, t) :: rest => decide (tp ≤ t) && timesMono t rest

/-! ### Interrupt-edge debouncer: `PicoFlowSlow.pulse_callback` -/

/-- `PicoFlowSlow.pulse_callback` (src/flow_slow/main.py lines 159-180) for
one pin: the per-pin state is `latest_timestamps_ms[pin]`.  The first
notification initialises it without posting; a later notification posts a
tick delta — and advances the stored timestamp — only when
`delta_ms > deadband_milliseconds`. -/
def slow_step (deadband : Int) (latest : Option Int) (now : Int) : Option Int × Bool :=
  match latest with
  | none => (some now, false)
  | some t => if deadband < now - t then (some now, true) else (some t, false)

/-- Run the interrupt-edge debouncer over notification timestamps,
returning the timestamps of the accepted (posted) edges. -/
def slow_run (deadband : Int) (latest : Option Int) : List Int → List Int
  | [] => []
  | t :: rest =>
      let step := slow_step deadband latest t
      if step.2 then t :: slow_run deadband step.1 rest
      else slow_run deadband step.1 rest

/-! ### Counting lemmas for the guard protocol -/

/-- Total occurrences of edge `i` across the flushed batches of a state. -/
def flushedCount (i : Nat) (s : BatchSt) : Nat :=
  (s.flushed.map fun b => b.count i).sum

/-- Occurrences of edge `i` anywhere downstream of a push: flushed batches
plus the live list. -/
def batchCountAll (i : Nat) (s : BatchSt) : Nat :=
  flushedCount i s + s.relative_list.count i

/-! ### Separation invariant for the polled FSM -/

/-- Invariant threading the polled FSM between samples.  `e` is the time of
the last recorded tick (or an artificial value far enough in the past,
before the first tick) and `tp` a lower bound on every future sample
time.  `GOING_UP` is only ever entered by recording a tick, so
`time_since_1` is at least `e` there; reaching `UP` costs more than
`deadband` beyond `time_since_1`; entering `GOING_DOWN` stamps
`time_since_0` accordingly; and returning to `DOWN` costs a further
`deadband`. -/
def ReedInv (d e tp : Int) (s : ReedFsmSt) : Prop :=
  match s.pin_state with
  | .DOWN => e + 2 * d < tp
  | .GOING_UP => e ≤ s.time_since_1 ∧ s.time_since_1 ≤ tp
  | .UP => e + d < tp
  | .GOING_DOWN => e + d < s.time_since_0 ∧ s.time_since_0 ≤ tp

/-! ## Helper lemmas -/

theorem batchCountAll_push (i : Nat) (s : BatchSt) (j : Nat) :
    batchCountAll i (batch_step s (.push j)) =
      batchCountAll i s +
        (if j = i ∧ s.actively_publishing = false then 1 else 0) := by
  by_cases hg : s.actively_publishing
  · simp [batch_step, hg]
  · by_cases hj : j = i
    · subst hj
      simp [batch_step, batchCountAll, flushedCount, hg, List.count_append]
      omega
    · simp [batch_step, batchCountAll, flushedCount, hg, hj, List.count_append,
        List.count_singleton', List.count_cons]

theorem batchCountAll_beginFlush (i : Nat) (s : BatchSt) :
    batchCountAll i (batch_step s .beginFlush) = batchCountAll i s := by
  simp [batch_step, batchCountAll, flushedCount, List.map_append, List.sum_append]

theorem batchCountAll_endFlush (i : Nat) (s : BatchSt) :
    batchCountAll i (batch_step s .endFlush) = batchCountAll i s := by
  simp [batch_step, batchCountAll, flushedCount]

theorem batchCountAll_run (i : Nat) :
    ∀ (evs : List BatchEv) (s : BatchSt),
      batchCountAll i (batch_run s evs) = batchCountAll i s + acceptedCount i s evs := by
  intro evs
  induction evs with
  | nil => intro s; simp [batch_run, acceptedCount]
  | cons ev rest ih =>
      intro s
      have h1 : batch_run s (ev :: rest) = batch_run (batch_step s ev) rest := by
        simp [batch_run]
      cases ev with
      | push j =>
          rw [h1, ih, batchCountAll_push, acceptedCount]
          omega
      | beginFlush =>
          rw [h1, ih, batchCountAll_beginFlush, acceptedCount]
      | endFlush =>
          rw [h1, ih, batchCountAll_endFlush, acceptedCount]

theorem acceptedCount_le_pushCount (i : Nat) :
    ∀ (evs : List BatchEv) (s : BatchSt), acceptedCount i s evs ≤ pushCount i evs := by
  intro evs
  induction evs with
  | nil => intro s; simp [acceptedCount, pushCount]
  | cons ev rest ih =>
      intro s
      cases ev with
      | push j =>
          have h := ih (batch_step s (.push j))
          simp only [acceptedCount, pushCount]
          by_cases hj : j = i
          · subst hj
            by_cases hg : s.actively_publishing = false <;> simp [hg] <;> omega
          · simp [hj]; exact h
      | beginFlush =>
          have h := ih (batch_step s .beginFlush)
          simp only [acceptedCount, pushCount]
          exact h
      | endFlush =>
          have h := ih (batch_step s .endFlush)
          simp only [acceptedCount, pushCount]
          exact h

theorem pairwise_of_countsum_le_one (i : Nat) :
    ∀ (L : List (List Nat)), ((L.map fun b => b.count i).sum ≤ 1) →
      List.Pairwise (fun b1 b2 => i ∈ b1 → i ∉ b2) L := by
  intro L
  induction L with
  | nil => intro _; exact List.Pairwise.nil
  | cons b rest ih =>
      intro h
      simp only [List.map_cons, List.sum_cons] at h
      refine List.Pairwise.cons ?_ (ih (by omega))
      intro b2 hb2 hib
      have hcb : 0 < b.count i := List.count_pos_iff.mpr hib
      have hz : (rest.map fun b => b.count i).sum = 0 := by omega
      have h2 : b2.count i = 0 := by
        by_contra hne
        have hmem : b2.count i ∈ rest.map fun b => b.count i :=
          List.mem_map_of_mem _ hb2
        have : 0 < b2.count i := Nat.pos_of_ne_zero hne
        have hle : b2.count i ≤ (rest.map fun b => b.count i).sum :=
          List.le_sum_of_mem hmem
        omega
      exact List.count_eq_zero.mp h2

theorem reed_fsm_run_chain (d : Int) :
    ∀ (samples : List (Bool × Int)) (s : ReedFsmSt) (tp e : Int),
      timesMono tp samples = true → ReedInv d e tp s →
      List.Chain (fun a b => a + 2 * d < b) e (reed_fsm_run d s samples) := by
  intro samples
  induction samples with
  | nil => intro s tp e _ _; exact List.Chain.nil
  | cons sample rest ih =>
      obtain ⟨r, t⟩ := sample
      intro s tp e hmono hinv
      obtain ⟨ps, t0, t1⟩ := s
      have ht : tp ≤ t ∧ timesMono t rest = true := by
        simpa [timesMono] using hmono
      cases ps with
      | DOWN =>
          simp only [ReedInv] at hinv
          cases r with
          | true =>
              simp only [reed_fsm_run, reed_fsm_step]
              exact List.Chain.cons (by omega)
                (ih ⟨.GOING_UP, t0, t⟩ t t ht.2 (by simp [ReedInv]))
          | false =>
              simp only [reed_fsm_run, reed_fsm_step]
              exact ih ⟨.DOWN, t0, t1⟩ t e ht.2 (by simp [ReedInv]; omega)
      | GOING_UP =>
          simp only [ReedInv] at hinv
          cases r with
          | false =>
              simp only [reed_fsm_run, reed_fsm_step]
              exact ih ⟨.GOING_UP, t0, t⟩ t e ht.2 (by simp [ReedInv]; omega)
          | true =>
              by_cases hc : d < t - t1
              · simp only [reed_fsm_run, reed_fsm_step, if_pos hc]
                exact ih ⟨.UP, t0, t1⟩ t e ht.2 (by simp [ReedInv]; omega)
              · simp only [reed_fsm_run, reed_fsm_step, if_neg hc]
                exact ih ⟨.GOING_UP, t0, t1⟩ t e ht.2 (by simp [ReedInv]; omega)
      | UP =>
          simp only [ReedInv] at hinv
          cases r with
          | false =>
              simp only [reed_fsm_run, reed_fsm_step]
              exact ih ⟨.GOING_DOWN, t, t1⟩ t e ht.2 (by simp [ReedInv]; omega)
          | true =>
              simp only [reed_fsm_run, reed_fsm_step]
              exact ih ⟨.UP, t0, t1⟩ t e ht.2 (by simp [ReedInv]; omega)
      | GOING_DOWN =>
          simp only [ReedInv] at hinv
          cases r with
          | true =>
              simp only [reed_fsm_run, reed_fsm_step]
              exact ih ⟨.GOING_DOWN, t, t1⟩ t e ht.2 (by simp [ReedInv]; omega)
          | false =>
              by_cases hc : d < t - t0
              · simp only [reed_fsm_run, reed_fsm_step, if_pos hc]
                exact ih ⟨.DOWN, t0, t1⟩ t e ht.2 (by simp [ReedInv]; omega)
              · simp only [reed_fsm_run, reed_fsm_step, if_neg hc]
                exact ih ⟨.GOING_DOWN, t0, t1⟩ t e ht.2 (by simp [ReedInv]; omega)

theorem slow_run_chain (d : Int) :
    ∀ (ts : List Int) (e : Int),
      List.Chain (fun a b => a + d < b) e (slow_run d (some e) ts) := by
  intro ts
  induction ts with
  | nil => intro e; exact List.Chain.nil
  | cons t rest ih =>
      intro e
      by_cases hc : d < t - e
      · simp only [slow_run, slow_step, if_pos hc]
        exact List.Chain.cons (by omega) (ih t)
      · simp only [slow_run, slow_step, if_neg hc]
        exact ih e

/-! ## Claim theorems -/

/-- C1 counterexample: the claim says that after a failed flush (transport
exception) the accumulated relative-timestamp list and the first-tick
timestamp are unchanged.  On the code, `post_ticklist` clears both even
when the POST raised: starting from `first_tick_us = 5`,
`relative_us_list = [0, 100]`, a flush that raises leaves the batch
cleared, not unchanged. -/
theorem C1_counterexample :
    post_ticklist ⟨some 5, [0, 100]⟩ PostOutcome.err ≠ ⟨some 5, [0, 100]⟩ := by
  decide

/-- C1 (amended): a transient transport failure during a ticklist publish is
logged and the publish attempt abandoned for this cycle, but the batch IS
lost: after any flush attempt — raised exception or any response status —
`PicoFlowHall.post_ticklist` leaves `relative_us_list = []` and
`first_tick_us = None`, and `PicoFlowReed.post_timestamp_list` does the
same whenever a batch was open (`first_tick_ms` set); the ticks of the
failed batch are not retried on the next `Due` transition. -/
theorem C1_flush_clears_batch_on_any_outcome (s : HallTickSt) (rs : TickState)
    (o o' : PostOutcome) (f : ℚ) (hf : rs.first_tick_ms = some f) :
    post_ticklist s o = ⟨none, []⟩ ∧
    (post_timestamp_list rs o').relative_ms_list = [] ∧
    (post_timestamp_list rs o').first_tick_ms = none := by
  obtain ⟨ft, rl, g⟩ := rs
  cases ft with
  | none => cases hf
  | some x =>
      refine ⟨by cases o <;> rfl, ?_, ?_⟩ <;> cases o' <;> rfl

/-- C1 witness: the amended theorem applied at a concrete open batch and a
raised POST. -/
theorem C1_witness :
    post_ticklist ⟨some 5, [0, 100]⟩ PostOutcome.err = ⟨none, []⟩ ∧
    (post_timestamp_list ⟨some 5, [0, 100], ⟨0, none⟩⟩ PostOutcome.err).relative_ms_list = [] ∧
    (post_timestamp_list ⟨some 5, [0, 100], ⟨0, none⟩⟩ PostOutcome.err).first_tick_ms = none :=
  C1_flush_clears_batch_on_any_outcome ⟨some 5, [0, 100]⟩ ⟨some 5, [0, 100], ⟨0, none⟩⟩
    PostOutcome.err PostOutcome.err 5 rfl

/-- C2: firmware slot round trip.  If `main.py` holds bytes `C`, staging an
update with bytes `B` and running the boot loader yields `main.py = B` and
`main_previous.py = C`; staging a rollback (renaming `main_previous.py` to
`main_revert.py`) and running the boot loader again restores
`main.py = C`. -/
theorem C2_update_rollback_roundtrip (fs : PicoFs) (B C : List Nat)
    (h : fs.main = some C) :
    (boot_step (stage_update fs B)).main = some B ∧
    (boot_step (stage_update fs B)).main_previous = some C ∧
    (boot_step (stage_rollback (boot_step (stage_update fs B)))).main = some C := by
  obtain ⟨m, u, r, p⟩ := fs
  simp only at h
  subst h
  simp [stage_update, boot_step, stage_rollback]

/-- C2 witness: the round trip at a concrete filesystem. -/
theorem C2_witness :
    (boot_step (stage_update ⟨some [1], none, none, none⟩ [2])).main = some [2] ∧
    (boot_step (stage_update ⟨some [1], none, none, none⟩ [2])).main_previous = some [1] ∧
    (boot_step (stage_rollback (boot_step (stage_update ⟨some [1], none, none, none⟩ [2])))).main
      = some [1] :=
  C2_update_rollback_roundtrip ⟨some [1], none, none, none⟩ [2] [1] rfl

/-- C8: with `publish_stamps_period_s = 10`, any main-loop state whose batch
is non-empty and whose last flush was 11 seconds ago flushes on the next
iteration (the batch is cleared and `last_ticks_sent` advanced); with an
empty batch at the same elapsed time no ticklist flush occurs, whatever
the empty-batch/keepalive interval is (the `len > 0` conjunct fails). -/
theorem C8_due_at_11s_nonempty_idle_when_empty (now last : Int) (l : List Int)
    (h : now - last = 11) :
    (l ≠ [] →
      hall_loop_tick_step 10 ⟨now, last, l⟩ = (⟨now, now, []⟩, true)) ∧
    hall_loop_tick_step 10 ⟨now, last, []⟩ = (⟨now, last, []⟩, false) := by
  constructor
  · intro hl
    have : 0 < l.length := List.length_pos.mpr hl
    simp [hall_loop_tick_step, ticklist_due, h, this]
  · simp [hall_loop_tick_step, ticklist_due]

/-- C8 witness: the scheduler decision at a concrete state 11 seconds after
the last flush. -/
theorem C8_witness :
    ([(5 : Int)] ≠ [] →
      hall_loop_tick_step 10 ⟨11, 0, [5]⟩ = (⟨11, 11, []⟩, true)) ∧
    hall_loop_tick_step 10 ⟨11, 0, []⟩ = (⟨11, 0, []⟩, false) :=
  C8_due_at_11s_nonempty_idle_when_empty 11 0 [5] (by decide)

/-- C9: for a 200-status firmware-check response, a JSON-decodable body
stages nothing and does not reboot, while a non-decodable body is written
in full to `main_update.py` and the device reboots. -/
theorem C9_update_code_contract (dec : List Nat → Bool) (r : CodeResp)
    (h : r.status = 200) :
    (dec r.body = true → update_code_model dec r = ⟨none, false⟩) ∧
    (dec r.body = false → update_code_model dec r = ⟨some r.body, true⟩) := by
  constructor <;> intro hd <;> simp [update_code_model, h, hd]

/-- C9 witness: the contract at a concrete 200 response whose body decodes
as JSON under the chosen oracle. -/
theorem C9_witness :
    ((fun l : List Nat => l.isEmpty) ([] : List Nat) = true →
      update_code_model (fun l : List Nat => l.isEmpty) ⟨200, []⟩ = ⟨none, false⟩) ∧
    ((fun l : List Nat => l.isEmpty) ([] : List Nat) = false →
      update_code_model (fun l : List Nat => l.isEmpty) ⟨200, []⟩ = ⟨some [], true⟩) :=
  C9_update_code_contract (fun l : List Nat => l.isEmpty) ⟨200, []⟩ rfl

/-- C10: the firmware-check POST has no exception handler, so a raised POST
propagates out of `update_code` and `start`, and the pin IRQ handler, the
keepalive timer and the main loop are never started; by contrast the
ticklist publish path swallows the same transport failure and continues
(it finishes and clears the batch). -/
theorem C10_update_code_raise_halts_start (dec : List Nat → Bool) :
    update_code_net dec (Except.error ()) = Except.error () ∧
    start_hall dec (Except.error ()) = ⟨true, false, false, false, false⟩ ∧
    (∀ s : HallTickSt, post_ticklist s PostOutcome.err = ⟨none, []⟩) := by
  exact ⟨rfl, rfl, fun s => rfl⟩

/-- C3 counterexample: the reset comparison is strict
(`delta_ms > self.no_flow_milliseconds`), so the exactly-1000 ms gap
between the 4th and 5th edges does NOT trigger a reset: processing the
five edges at relative times `[0, 120, 245, 500, 1500]` with
`no_flow_milliseconds = 1000` leaves a non-zero smoothed rate after the
5th edge. -/
theorem C3_counterexample :
    (record_ticks reedScenarioCfg initTickState [0, 120, 245, 500, 1500]).gpm.exp_gpm ≠ 0 := by
  with_unfolding_all decide

/-- C3 (amended): a 4th-to-5th gap of exactly `no_signal_timeout = 1000` ms
does not reset the rate (the code's comparison is strict), so the edges
`[0, 120, 245, 500, 1500]` leave a non-zero smoothed rate; a gap strictly
greater than the timeout does reset it: edges `[0, 120, 245, 500, 1501]`
(gap 1001 ms) drive the smoothed rate to exactly 0 on the 5th edge,
regardless of the smoothing accumulated over the first four edges. -/
theorem C3_reset_only_on_strict_gap :
    (record_ticks reedScenarioCfg initTickState [0, 120, 245, 500, 1500]).gpm.exp_gpm ≠ 0 ∧
    (record_ticks reedScenarioCfg initTickState [0, 120, 245, 500, 1501]).gpm.exp_gpm = 0 := by
  constructor
  · with_unfolding_all decide
  · with_unfolding_all decide

/-- C6: with the default `PicoFlowHall` configuration (`alpha = 0.1`,
`exp_weighting_ms = 40`, `no_flow_milliseconds = 1000`) and a sample with
`delta_ms = 500` (i.e. `delta_us = 500000`, raw rate `1e6/500000 = 2` Hz):
from a zero smoothed state the new rate is exactly the raw rate; the time
weight at 500 ms is `min(1, (500/40)*0.1) = 1`, so from any non-zero
smoothed state the new rate fully tracks the raw rate; and for every
configuration and delta the time weight never exceeds 1. -/
theorem C6_time_weighted_smoothing (p : Option ℚ) (st : HzState)
    (h : st.exp_hz ≠ 0) :
    (update_hz hallCfg ⟨0, p⟩ 500000).state.exp_hz = 2 ∧
    tw_alpha hallCfg 500 = 1 ∧
    (update_hz hallCfg st 500000).state.exp_hz = 2 ∧
    (∀ (cfg : HzConfig) (delta_ms : ℚ), tw_alpha cfg delta_ms ≤ 1) := by
  refine ⟨?_, ?_, ?_, fun cfg delta_ms => min_le_left _ _⟩
  · cases p with
    | none => norm_num [update_hz, hallCfg, post_hz]
    | some q =>
        norm_num [update_hz, hallCfg, post_hz]
        split <;> norm_num
  · norm_num [tw_alpha, hallCfg, min_def]
  · obtain ⟨e, pp⟩ := st
    simp only at h
    cases pp <;> norm_num [update_hz, hallCfg, post_hz, tw_alpha, h, min_def]
    split <;> rfl

/-- C6 witness: the smoothing facts at the concrete non-zero state
`exp_hz = 5`. -/
theorem C6_witness :
    (update_hz hallCfg ⟨0, none⟩ 500000).state.exp_hz = 2 ∧
    tw_alpha hallCfg 500 = 1 ∧
    (update_hz hallCfg ⟨5, none⟩ 500000).state.exp_hz = 2 ∧
    (∀ (cfg : HzConfig) (delta_ms : ℚ), tw_alpha cfg delta_ms ≤ 1) :=
  C6_time_weighted_smoothing none ⟨5, none⟩ (by norm_num)

/-- C7: whenever `delta_ms > no_flow_milliseconds`, `update_hz` sets the
smoothed rate to exactly 0 regardless of the prior smoothed value, and it
publishes precisely when there is no previously-published value or the
absolute difference between the (new) smoothed rate and the
previously-published one exceeds the configured threshold; the reed
variant `update_gpm` resets to exactly 0 under the same condition. -/
theorem C7_no_flow_resets_to_zero (cfg : HzConfig) (st : HzState) (delta_us : ℚ)
    (h : cfg.no_flow_milliseconds < delta_us / 1000) :
    (update_hz cfg st delta_us).state.exp_hz = 0 ∧
    ((update_hz cfg st delta_us).posted = true ↔
      (st.prev_hz = none ∨ ∃ p, st.prev_hz = some p ∧
        cfg.async_capture_delta_hz < |0 - p|)) ∧
    (∀ (rcfg : GpmConfig) (rs : GpmState) (delta_ms : ℚ),
        rcfg.no_flow_milliseconds < delta_ms →
        (update_gpm rcfg rs delta_ms).exp_gpm = 0) := by
  refine ⟨?_, ?_, ?_⟩
  · obtain ⟨e, pp⟩ := st
    cases pp with
    | none => simp [update_hz, post_hz, h]
    | some p =>
        simp only [update_hz, h, if_true, post_hz]
        split <;> rfl
  · obtain ⟨e, pp⟩ := st
    cases pp with
    | none => simp [update_hz, post_hz, h]
    | some p =>
        simp [update_hz, post_hz, h]
        split <;> simp_all
  · intro rcfg rs delta_ms hr
    obtain ⟨e, pp⟩ := rs
    cases pp with
    | none => simp [update_gpm, post_gpm, hr]; split <;> rfl
    | some p =>
        simp only [update_gpm, hr, if_true]
        split <;> (simp [post_gpm]; try split) <;> rfl

/-- C7 witness: reset and publish decision at the concrete state
`exp_hz = 5`, `prev_hz = 3`, with a 2-second delta against the default
1-second timeout. -/
theorem C7_witness :
    (update_hz hallCfg ⟨5, some 3⟩ 2000000).state.exp_hz = 0 ∧
    ((update_hz hallCfg ⟨5, some 3⟩ 2000000).posted = true ↔
      ((some (3:ℚ) = none) ∨ ∃ p, some (3:ℚ) = some p ∧
        hallCfg.async_capture_delta_hz < |0 - p|)) ∧
    (∀ (rcfg : GpmConfig) (rs : GpmState) (delta_ms : ℚ),
        rcfg.no_flow_milliseconds < delta_ms →
        (update_gpm rcfg rs delta_ms).exp_gpm = 0) :=
  C7_no_flow_resets_to_zero hallCfg ⟨5, some 3⟩ 2000000 (by norm_num [hallCfg])

/-- C5: under any interleaving of edge-callback pushes and main-loop
flushes, (a) an edge pushed at most once never appears in two flushed
batches, (b) an edge all of whose pushes occur while `actively_publishing`
is set appears in no flushed batch and not in the live list — it is
dropped, not queued — and (c) `pulse_callback`'s push is a no-op whenever
the guard is set. -/
theorem C5_guard_protocol_integrity (evs : List BatchEv) (i : Nat) :
    (pushCount i evs ≤ 1 →
      List.Pairwise (fun b1 b2 => i ∈ b1 → i ∉ b2) (batch_run initBatchSt evs).flushed) ∧
    (acceptedCount i initBatchSt evs = 0 →
      (∀ b ∈ (batch_run initBatchSt evs).flushed, i ∉ b) ∧
      i ∉ (batch_run initBatchSt evs).relative_list) ∧
    (∀ s : BatchSt, s.actively_publishing = true → batch_step s (.push i) = s) := by
  have hrun := batchCountAll_run i evs initBatchSt
  have hinit : batchCountAll i initBatchSt = 0 := rfl
  refine ⟨?_, ?_, ?_⟩
  · intro h1
    have hacc := acceptedCount_le_pushCount i evs initBatchSt
    have hsum : ((batch_run initBatchSt evs).flushed.map fun b => b.count i).sum ≤ 1 := by
      have hle : batchCountAll i (batch_run initBatchSt evs) ≤ 1 := by omega
      unfold batchCountAll flushedCount at hle
      omega
    exact pairwise_of_countsum_le_one i _ hsum
  · intro h2
    have hall : batchCountAll i (batch_run initBatchSt evs) = 0 := by omega
    unfold batchCountAll flushedCount at hall
    constructor
    · intro b hb
      have hc : b.count i = 0 := by
        have hmem : b.count i ∈ (batch_run initBatchSt evs).flushed.map fun b => b.count i :=
          List.mem_map_of_mem _ hb
        have := List.le_sum_of_mem hmem
        omega
      exact List.count_eq_zero.mp hc
    · have hc : (batch_run initBatchSt evs).relative_list.count i = 0 := by omega
      exact List.count_eq_zero.mp hc
  · intro s hs
    simp [batch_step, hs]

/-- C5 witness: the trace `push 1, beginFlush, push 2, endFlush` — edge 2
arrives while the guard is up, so it is absent from the flushed batch and
from the live list, and pushing into a guarded state is a no-op. -/
theorem C5_witness :
    List.Pairwise (fun b1 b2 => 2 ∈ b1 → 2 ∉ b2)
      (batch_run initBatchSt
        [BatchEv.push 1, BatchEv.beginFlush, BatchEv.push 2, BatchEv.endFlush]).flushed ∧
    ((∀ b ∈ (batch_run initBatchSt
        [BatchEv.push 1, BatchEv.beginFlush, BatchEv.push 2, BatchEv.endFlush]).flushed,
        2 ∉ b) ∧
      2 ∉ (batch_run initBatchSt
        [BatchEv.push 1, BatchEv.beginFlush, BatchEv.push 2, BatchEv.endFlush]).relative_list) ∧
    batch_step ⟨true, [], []⟩ (BatchEv.push 2) = ⟨true, [], []⟩ :=
  ⟨(C5_guard_protocol_integrity
      [BatchEv.push 1, BatchEv.beginFlush, BatchEv.push 2, BatchEv.endFlush] 2).1 (by decide),
   (C5_guard_protocol_integrity
      [BatchEv.push 1, BatchEv.beginFlush, BatchEv.push 2, BatchEv.endFlush] 2).2.1 (by decide),
   (C5_guard_protocol_integrity
      [BatchEv.push 1, BatchEv.beginFlush, BatchEv.push 2, BatchEv.endFlush] 2).2.2
      ⟨true, [], []⟩ rfl⟩

/-- C4 counterexample: in polled-level mode a bounce DOES produce an
emitted edge.  With `deadband = 10`, from state `DOWN` a single `1`
reading at t=100 that reverts to `0` at t=105 (within the window) records
a tick at t=100: the tick is recorded at the unconfirmed `DOWN -> GOING_UP`
transition, before any stability check, refuting "a bounce never produces
an emitted edge" and "only the confirmed rising transition emits". -/
theorem C4_counterexample :
    reed_fsm_run 10 ⟨ReedPinState.DOWN, 0, 0⟩ [(true, 100), (false, 105)] = [100] := by
  decide

/-- C4 (amended): any two edges the debouncers emit are separated by MORE
than the window — in polled-level mode by more than twice
`deadband_milliseconds` (for nondecreasing sample times), in
interrupt-edge mode by more than `deadband_milliseconds` — and in
interrupt-edge mode a notification within the window of the last accepted
edge never produces an edge; but in polled-level mode the edge is emitted
immediately at the (unconfirmed) `DOWN -> GOING_UP` transition, which is
the unique emitting transition, so a bounce's first rising reading does
emit an edge. -/
theorem C4_emitted_edges_separated (d : Int) (samples : List (Bool × Int))
    (t0 t1 tp : Int) (hmono : timesMono tp samples = true) :
    List.Chain' (fun a b => a + 2 * d < b)
      (reed_fsm_run d ⟨.DOWN, t0, t1⟩ samples) ∧
    (∀ ts : List Int, List.Chain' (fun a b => a + d < b) (slow_run d none ts)) ∧
    (∀ (s : ReedFsmSt) (r : Bool) (now : Int),
      (reed_fsm_step d s r now).2 = true ↔ s.pin_state = .DOWN ∧ r = true) := by
  refine ⟨?_, ?_, ?_⟩
  · have h := reed_fsm_run_chain d samples ⟨.DOWN, t0, t1⟩ tp (tp - 2 * d - 1) hmono
      (by simp [ReedInv]; omega)
    exact List.Chain'.tail
      (show List.Chain' (fun a b => a + 2 * d < b)
        ((tp - 2 * d - 1) :: reed_fsm_run d ⟨.DOWN, t0, t1⟩ samples) from h)
  · intro ts
    cases ts with
    | nil => simp [slow_run, List.Chain']
    | cons t rest =>
        have h := slow_run_chain d rest t
        have hstep : slow_run d none (t :: rest) = slow_run d (some t) rest := by
          simp [slow_run, slow_step]
        rw [hstep]
        exact List.Chain'.tail
          (show List.Chain' (fun a b => a + d < b)
            (t :: slow_run d (some t) rest) from h)
  · intro s r now
    obtain ⟨ps, a, b⟩ := s
    cases ps <;> cases r <;> simp [reed_fsm_step]

/-- C4 witness: the separation properties at a concrete deadband and sample
sequence with nondecreasing times. -/
theorem C4_witness :
    List.Chain' (fun a b => a + 2 * 10 < b)
      (reed_fsm_run 10 ⟨.DOWN, 0, 0⟩ [(true, 100), (false, 200)]) ∧
    (∀ ts : List Int, List.Chain' (fun a b => a + 10 < b) (slow_run 10 none ts)) ∧
    (∀ (s : ReedFsmSt) (r : Bool) (now : Int),
      (reed_fsm_step 10 s r now).2 = true ↔ s.pin_state = .DOWN ∧ r = true) :=
  C4_emitted_edges_separated 10 [(true, 100), (false, 200)] 0 0 0 (by decide)
